import Mathlib

/-!
Verification of the orchestration layer of the kindle_conversion_wrapper
repository (file kindle_conversion_wrapper.py).  The Python source is
shallowly embedded: the filesystem state the orchestrator inspects is an
explicit record, each external subprocess invocation is abstracted by its
observable outcome (exit status and filesystem state afterwards), and the
pure string manipulations of the source are translated to executable Lean
functions over character lists (mirroring the Python str methods used:
strip, lower, startswith, endswith, split, replace).
-/

/-! ## Python string primitives, modelled over `List Char` (ASCII fragment) -/

/-- Model of the Python str.strip method: drop leading and trailing
whitespace characters. -/
def stripChars (cs : List Char) : List Char :=
  ((cs.dropWhile Char.isWhitespace).reverse.dropWhile Char.isWhitespace).reverse

/-- Python str.strip on strings. -/
def pyStrip (s : String) : String := String.mk (stripChars s.data)

/-- Python str.lower (ASCII case folding). -/
def pyLower (s : String) : String := String.mk (s.data.map Char.toLower)

/-- Python str.startswith. -/
def pyStartsWith (s p : String) : Bool := p.data.isPrefixOf s.data

/-- Python str.endswith. -/
def pyEndsWith (s p : String) : Bool := p.data.isSuffixOf s.data

/-- Split a character list at every occurrence of the separator character,
as the Python str.split method with a single-character separator. -/
def splitOnChar (c : Char) : List Char → List (List Char)
  | [] => [[]]
  | x :: xs =>
    if x = c then [] :: splitOnChar c xs
    else
      match splitOnChar c xs with
      | [] => [[x]]
      | g :: gs => (x :: g) :: gs

/-- Python key.split with separator the dot character, as used on dotted
configuration keys. -/
def pySplitDot (s : String) : List String := (splitOnChar '.' s.data).map String.mk

/-- Split at the first occurrence of a character; `none` when the character
does not occur.  Models both the Python membership test (the in operator on
strings) and str.split with maxsplit one. -/
def splitFirst (c : Char) : List Char → Option (List Char × List Char)
  | [] => none
  | x :: xs =>
    if x = c then some ([], xs)
    else (splitFirst c xs).map (fun p => (x :: p.1, p.2))

/-- Python line.split with separator the equals sign and maxsplit one,
returning `none` when the line holds no equals sign. -/
def pySplitEqOnce (s : String) : Option (String × String) :=
  (splitFirst '=' s.data).map (fun p => (String.mk p.1, String.mk p.2))

/-- Fuel-bounded replacement of every non-overlapping occurrence of a
pattern, scanning left to right as the Python str.replace method.  The fuel
is always instantiated with the length of the scanned list, which suffices
because each step consumes at least one character.  (The empty pattern,
never used by the source, is treated as matching nowhere.) -/
def replaceAllAux (pat repl : List Char) : Nat → List Char → List Char
  | _, [] => []
  | 0, s => s
  | fuel + 1, x :: xs =>
    if !pat.isEmpty && pat.isPrefixOf (x :: xs) then
      repl ++ replaceAllAux pat repl fuel (List.drop (pat.length - 1) xs)
    else
      x :: replaceAllAux pat repl fuel xs

/-- Python str.replace (all occurrences, left to right, non-overlapping). -/
def pyReplace (s pat repl : String) : String :=
  String.mk (replaceAllAux pat.data repl.data s.data.length s.data)

/-- Numeric value of a digit string, as the Python int constructor applied
to a string that passed the isdigit test. -/
def digitsToNat (cs : List Char) : Nat :=
  cs.foldl (fun n c => n * 10 + (c.toNat - 48)) 0

/-! ## Configuration record (shape of the defaults in load_config) -/

/-- Section pipeline.download of the configuration. -/
structure DownloadConfig where
  enabled : Bool
  pages_per_batch : Nat
  auto_confirm : Bool
deriving DecidableEq

/-- Section pipeline.decode of the configuration. -/
structure DecodeConfig where
  enabled : Bool
  mode : String
  early_exit : Bool
  save_images : Bool
deriving DecidableEq

/-- Section pipeline.epub of the configuration. -/
structure EpubConfig where
  enabled : Bool
  output_name : String
  include_metadata : Bool
deriving DecidableEq

/-- Section pipeline of the configuration. -/
structure PipelineConfig where
  download : DownloadConfig
  decode : DecodeConfig
  epub : EpubConfig
deriving DecidableEq

/-- Section paths of the configuration. -/
structure PathsConfig where
  downloads : String
  fonts : String
  output : String
deriving DecidableEq

/-- Section batch of the configuration. -/
structure BatchConfig where
  continue_on_error : Bool
deriving DecidableEq

/-- Section logging of the configuration. -/
structure LoggingConfig where
  level : String
  save_logs : Bool
  log_file : String
deriving DecidableEq

/-- The configuration record consumed by the processors. -/
structure Config where
  pipeline : PipelineConfig
  paths : PathsConfig
  batch : BatchConfig
  logging : LoggingConfig
deriving DecidableEq

/-- Command line arguments relevant to configuration overrides (argparse
namespace of main). -/
structure Args where
  fast : Bool
  full : Bool
  progressive : Bool
  yes : Bool
  output_name : Option String
  skip_download : Bool
  skip_decode : Bool
  skip_epub : Bool
deriving DecidableEq

/-- CLI decode-mode overrides applied by main (the fast, full, progressive
flags, first match wins as in the elif chain). -/
def applyModeOverride (cfg : Config) (a : Args) : Config :=
  if a.fast then
    { cfg with pipeline := { cfg.pipeline with decode := { cfg.pipeline.decode with mode := "fast" } } }
  else if a.full then
    { cfg with pipeline := { cfg.pipeline with decode := { cfg.pipeline.decode with mode := "full" } } }
  else if a.progressive then
    { cfg with pipeline := { cfg.pipeline with decode := { cfg.pipeline.decode with mode := "progressive" } } }
  else cfg

/-- CLI auto-confirm override applied by main (the yes flag). -/
def applyYesOverride (cfg : Config) (a : Args) : Config :=
  if a.yes then
    { cfg with pipeline := { cfg.pipeline with download := { cfg.pipeline.download with auto_confirm := true } } }
  else cfg

/-- CLI output-name override applied by main; the Python truthiness test
skips both an absent and an empty string argument. -/
def applyOutputNameOverride (cfg : Config) (a : Args) : Config :=
  match a.output_name with
  | none => cfg
  | some n =>
    if n = "" then cfg
    else { cfg with pipeline := { cfg.pipeline with epub := { cfg.pipeline.epub with output_name := n } } }

/-- CLI skip flags applied by main: each one forces the matching stage to
disabled. -/
def applySkipFlags (cfg : Config) (a : Args) : Config :=
  let cfg1 :=
    if a.skip_download then
      { cfg with pipeline := { cfg.pipeline with download := { cfg.pipeline.download with enabled := false } } }
    else cfg
  let cfg2 :=
    if a.skip_decode then
      { cfg1 with pipeline := { cfg1.pipeline with decode := { cfg1.pipeline.decode with enabled := false } } }
    else cfg1
  if a.skip_epub then
    { cfg2 with pipeline := { cfg2.pipeline with epub := { cfg2.pipeline.epub with enabled := false } } }
  else cfg2

/-- All CLI overrides of main, in source order. -/
def applyCliOverrides (cfg : Config) (a : Args) : Config :=
  applySkipFlags (applyOutputNameOverride (applyYesOverride (applyModeOverride cfg a) a) a) a

/-! ## Filesystem model

The orchestrator only inspects: the per-identifier working directory (the
downloads path joined with the identifier), its immediate subdirectories
and their files, and two fixed-name artifacts in the current working
directory.  That observable state is the record below. -/

/-- One subdirectory of the working directory: its name, the names of its
files, and the content of its metadata.json file when present (outer
`Option`: the file exists; inner `Option`: it holds a bookTitle entry). -/
structure BatchDir where
  name : String
  files : List String
  bookTitle : Option (Option String)
deriving DecidableEq

/-- The filesystem state the orchestrator observes.  `bookDir = none`
models an absent working directory. -/
structure FS where
  bookDir : Option (List BatchDir)
  cwdFiles : List String
deriving DecidableEq

/-- A file name matches the glob pattern page_data_*.json.  Since the
prefix holds no dot, prefix plus suffix matching coincides with the glob
semantics. -/
def matchesPageData (f : String) : Bool :=
  pyStartsWith f "page_data_" && pyEndsWith f ".json"

/-- KindleProcessor.is_complete_batch: a batch directory is complete iff
its single required pattern page_data_*.json has at least one match. -/
def is_complete_batch (b : BatchDir) : Bool :=
  !(b.files.filter matchesPageData).isEmpty

/-- KindleProcessor.cleanup_on_failure: when the working directory exists,
delete every subdirectory matching batch_* that is not complete; then
delete the two fixed-name artifacts from the current working directory
when present (absent files raise nothing: the model is total). -/
def cleanup_on_failure (fs : FS) : FS :=
  { bookDir := fs.bookDir.map (fun ds =>
      ds.filter (fun b => !pyStartsWith b.name "batch_" || is_complete_batch b)),
    cwdFiles := fs.cwdFiles.filter (fun f =>
      !(f = "ttf_character_mapping.json" : Bool) && !(f = "decoded_book.epub" : Bool)) }

/-! ## Single-item pipeline -/

/-- The three pipeline stages of run_pipeline, in source order. -/
inductive Step where
  | download
  | decode
  | epub
deriving DecidableEq

/-- Observable outcome of one external stage invocation: whether the
subprocess exited with status zero, and the filesystem state afterwards. -/
structure StepOutcome where
  exitZero : Bool
  fsAfter : FS

/-- One pipeline step body (download_book, decode_glyphs, create_epub up to
its artifact check): a non-zero exit status raises CalledProcessError
through the check=True subprocess invocation; with a zero exit status the
step still raises when its expected artifact is absent. -/
def runStep (s : Step) (o : StepOutcome) : Except String Unit :=
  match s with
  | Step.download =>
    if !o.exitZero then Except.error "CalledProcessError"
    else
      match o.fsAfter.bookDir with
      | none => Except.error "Download failed - book directory not created"
      | some ds =>
        if (ds.filter (fun d => pyStartsWith d.name "batch_")).isEmpty then
          Except.error "Download failed - no batch directories found"
        else Except.ok ()
  | Step.decode =>
    if !o.exitZero then Except.error "CalledProcessError"
    else if "ttf_character_mapping.json" ∈ o.fsAfter.cwdFiles then Except.ok ()
    else Except.error "Decode failed - character mapping file not created"
  | Step.epub =>
    if !o.exitZero then Except.error "CalledProcessError"
    else if "decoded_book.epub" ∈ o.fsAfter.cwdFiles then Except.ok ()
    else Except.error "EPUB creation failed - output file not found"

/-- Whether a step body returns without raising. -/
def stepSucceeds (s : Step) (o : StepOutcome) : Bool :=
  match runStep s o with
  | Except.ok _ => true
  | Except.error _ => false

/-- The step list built by run_pipeline from the enabled switches. -/
def stepList (cfg : Config) : List Step :=
  (if cfg.pipeline.download.enabled then [Step.download] else []) ++
  (if cfg.pipeline.decode.enabled then [Step.decode] else []) ++
  (if cfg.pipeline.epub.enabled then [Step.epub] else [])

/-- The enabled switch of the configuration governing one stage. -/
def enabledOf (cfg : Config) : Step → Bool
  | Step.download => cfg.pipeline.download.enabled
  | Step.decode => cfg.pipeline.decode.enabled
  | Step.epub => cfg.pipeline.epub.enabled

/-- The CLI skip flag governing one stage. -/
def skipOf (a : Args) : Step → Bool
  | Step.download => a.skip_download
  | Step.decode => a.skip_decode
  | Step.epub => a.skip_epub

/-- Result of the step-execution loop of run_pipeline: the steps that were
started, whether cleanup_on_failure ran, the propagated outcome, and the
final filesystem state. -/
structure PipelineResult where
  executed : List Step
  cleanupRan : Bool
  result : Except String Unit
  finalFs : FS

/-- The step-execution loop of run_pipeline: run each step in order; on the
first failure run cleanup_on_failure and re-raise, executing no later
step. -/
def runSteps (outcomes : Step → StepOutcome) (fs0 : FS) : List Step → PipelineResult
  | [] => ⟨[], false, Except.ok (), fs0⟩
  | s :: rest =>
    match runStep s (outcomes s) with
    | Except.ok _ =>
      let r := runSteps outcomes (outcomes s).fsAfter rest
      ⟨s :: r.executed, r.cleanupRan, r.result, r.finalFs⟩
    | Except.error e =>
      ⟨[s], true, Except.error e, cleanup_on_failure (outcomes s).fsAfter⟩

/-- Command line built by decode_glyphs: the book directory argument plus
one mode flag for the three recognized modes, and no flag otherwise. -/
def decode_glyphs_cmd (bookDir : String) (mode : String) : List String :=
  let cmd := ["python3", "decode_glyphs_complete.py", bookDir]
  if mode = "fast" then cmd ++ ["--fast"]
  else if mode = "full" then cmd ++ ["--full"]
  else if mode = "progressive" then cmd ++ ["--progressive"]
  else cmd

/-! ## EPUB naming (create_epub) -/

/-- Characters removed from titles by the regular expression in
create_epub. -/
def illegalFilenameChars : List Char := ['<', '>', ':', '"', '/', '\\', '|', '?', '*']

/-- Title sanitization of create_epub: remove the illegal filename
characters, then strip surrounding whitespace. -/
def sanitizeTitle (t : String) : String :=
  String.mk (stripChars (t.data.filter (fun c => !illegalFilenameChars.contains c)))

/-- First subdirectory of the given name (filesystem names are unique, the
first match is the directory). -/
def findDir (ds : List BatchDir) (nm : String) : Option BatchDir :=
  match ds with
  | [] => none
  | d :: rest => if d.name = nm then some d else findDir rest nm

/-- The metadata.json content of the subdirectory literally named batch_0:
`none` when the subdirectory or the file is absent, otherwise the optional
bookTitle entry. -/
def batch0Meta (ds : List BatchDir) : Option (Option String) :=
  match findDir ds "batch_0" with
  | none => none
  | some d => d.bookTitle

/-- The clean title computed by create_epub: when the metadata file is
readable, the bookTitle entry (or, when that key is absent, the identifier)
passed through sanitization; when it is not, the identifier unchanged. -/
def readTitle (ds : List BatchDir) (asin : String) : String :=
  match batch0Meta ds with
  | some mt => sanitizeTitle (Option.getD mt asin)
  | none => asin

/-- The final EPUB filename computed by create_epub from the configured
output name: the literal auto sentinel uses the clean title; any other
string is a template with the asin and title placeholders substituted and a
missing .epub suffix appended. -/
def createEpubName (asin : String) (ds : List BatchDir) (outputName : String) : String :=
  let cleanTitle := readTitle ds asin
  if outputName = "auto" then cleanTitle ++ ".epub"
  else
    let custom := pyReplace (pyReplace outputName "{asin}" asin) "{title}" cleanTitle
    if pyEndsWith custom ".epub" then custom else custom ++ ".epub"

/-! ## Batch processing -/

/-- One record of the batch report (the error field is absent on
success). -/
structure BookResult where
  asin : String
  status : String
  error : Option String
deriving DecidableEq

/-- The record appended by process_batch for one identifier, given the
outcome of its single-item pipeline. -/
def recordOf (run : String → Except String Unit) (a : String) : BookResult :=
  match run a with
  | Except.ok _ => ⟨a, "success", none⟩
  | Except.error e => ⟨a, "failed", some e⟩

/-- The per-identifier loop of process_batch: run each identifier in file
order, record success or failure, and stop right after a failure when
continue_on_error is false. -/
def batchLoop (continueOnError : Bool) (run : String → Except String Unit) :
    List String → List BookResult
  | [] => []
  | a :: rest =>
    match run a with
    | Except.ok _ => ⟨a, "success", none⟩ :: batchLoop continueOnError run rest
    | Except.error e =>
      ⟨a, "failed", some e⟩ :: (if continueOnError then batchLoop continueOnError run rest else [])

/-- Reading of the identifier list in process_batch: keep each line that is
non-blank after stripping and does not start with the comment character,
stripped. -/
def parseBookList (lines : List String) : List String :=
  (lines.filter (fun l => !(pyStrip l).data.isEmpty && !pyStartsWith l "#")).map pyStrip

/-- Line-by-line restatement of the identifier list reading, following the
specification wording: one identifier per non-blank, non-comment line, with
whitespace trimmed. -/
def parseBookListSpec : List String → List String
  | [] => []
  | l :: rest =>
    if (pyStrip l).data.isEmpty || pyStartsWith l "#" then parseBookListSpec rest
    else pyStrip l :: parseBookListSpec rest

/-- The two failure conditions process_batch raises before any identifier
runs. -/
inductive BatchError where
  | fileNotFound
  | noAsins
deriving DecidableEq

/-- BatchProcessor.process_batch: fail when the list file is absent or
yields no identifiers, otherwise run the loop and return the report
records.  `fileLines = none` models an absent list file. -/
def processBatch (fileLines : Option (List String)) (cfg : Config)
    (run : String → Except String Unit) : Except BatchError (List BookResult) :=
  match fileLines with
  | none => Except.error BatchError.fileNotFound
  | some lines =>
    let asins := parseBookList lines
    if asins.isEmpty then Except.error BatchError.noAsins
    else Except.ok (batchLoop cfg.batch.continue_on_error run asins)

/-! ## Override file parsing and merging (parse_simple_config, load_config) -/

/-- A coerced configuration value: the strings true and false (case
insensitively) become booleans, all-digit strings become integers, anything
else stays a string. -/
inductive CVal where
  | bool (b : Bool)
  | int (n : Nat)
  | str (s : String)
deriving DecidableEq

/-- A nested configuration tree: a leaf value or a mapping given as an
association list in insertion order, as a Python dict. -/
inductive CTree where
  | leaf (v : CVal)
  | node (entries : List (String × CTree))

/-- Lookup of a key in a mapping (Python dict indexing). -/
def assocGet (m : List (String × CTree)) (k : String) : Option CTree :=
  match m with
  | [] => none
  | (k', v) :: rest => if k' = k then some v else assocGet rest k

/-- Assignment of a key in a mapping (Python dict assignment): replace the
value in place when the key is present, append otherwise. -/
def assocSet (m : List (String × CTree)) (k : String) (v : CTree) : List (String × CTree) :=
  match m with
  | [] => [(k, v)]
  | (k', v') :: rest => if k' = k then (k, v) :: rest else (k', v') :: assocSet rest k v

/-- Value type coercion of parse_simple_config. -/
def coerceValue (s : String) : CVal :=
  if pyLower s = "true" then CVal.bool true
  else if pyLower s = "false" then CVal.bool false
  else if !s.data.isEmpty && s.data.all Char.isDigit then CVal.int (digitsToNat s.data)
  else CVal.str s

/-- Nested assignment of parse_simple_config: walk every key component but
the last, creating an empty mapping for an absent component and descending
into an existing mapping; assign the value at the last component.  `none`
models the TypeError Python raises when a traversed component holds a
non-mapping value. -/
def setPath (m : List (String × CTree)) : List String → CVal → Option (List (String × CTree))
  | [], _ => some m
  | [k], v => some (assocSet m k (CTree.leaf v))
  | k :: ks, v =>
    match assocGet m k with
    | some (CTree.node m2) =>
      (setPath m2 ks v).map (fun m2' => assocSet m k (CTree.node m2'))
    | some (CTree.leaf _) => none
    | none =>
      (setPath [] ks v).map (fun m2' => assocSet m k (CTree.node m2'))

/-- One line of parse_simple_config: strip the line; skip blank and comment
lines; skip lines without an equals sign; otherwise strip key and value,
coerce the value and assign it along the dotted key. -/
def processConfigLine (cfg : List (String × CTree)) (line : String) :
    Option (List (String × CTree)) :=
  let l := pyStrip line
  if l.data.isEmpty || pyStartsWith l "#" then some cfg
  else
    match pySplitEqOnce l with
    | none => some cfg
    | some (k, v) =>
      setPath cfg (pySplitDot (pyStrip k)) (coerceValue (pyStrip v))

/-- parse_simple_config over the lines of the override file. -/
def parseSimpleConfig (lines : List String) : Option (List (String × CTree)) :=
  lines.foldlM processConfigLine []

/-- The recursive merge of load_config: for each override entry in order,
merge recursively when both sides hold mappings at the key, otherwise
assign the override value outright. -/
def mergeDicts : List (String × CTree) → List (String × CTree) → List (String × CTree)
  | d, [] => d
  | d, (k, CTree.leaf v) :: rest => mergeDicts (assocSet d k (CTree.leaf v)) rest
  | d, (k, CTree.node cm) :: rest =>
    match assocGet d k with
    | some (CTree.node dm) => mergeDicts (assocSet d k (CTree.node (mergeDicts dm cm))) rest
    | some (CTree.leaf _) => mergeDicts (assocSet d k (CTree.node cm)) rest
    | none => mergeDicts (assocSet d k (CTree.node cm)) rest
termination_by _ c => sizeOf c
decreasing_by all_goals (simp_wf; try omega)

/-- The value the merge stores at a key, given the default at that key and
the override value. -/
def mergedValue (dv : Option CTree) (cv : CTree) : CTree :=
  match dv, cv with
  | some (CTree.node dm), CTree.node cm => CTree.node (mergeDicts dm cm)
  | _, _ => cv

/-- The default configuration of load_config as a configuration tree. -/
def defaultConfigTree : List (String × CTree) :=
  [("pipeline", CTree.node
      [("download", CTree.node
          [("enabled", CTree.leaf (CVal.bool true)),
           ("pages_per_batch", CTree.leaf (CVal.int 5)),
           ("auto_confirm", CTree.leaf (CVal.bool false))]),
       ("decode", CTree.node
          [("enabled", CTree.leaf (CVal.bool true)),
           ("mode", CTree.leaf (CVal.str "progressive")),
           ("early_exit", CTree.leaf (CVal.bool true)),
           ("save_images", CTree.leaf (CVal.bool true))]),
       ("epub", CTree.node
          [("enabled", CTree.leaf (CVal.bool true)),
           ("output_name", CTree.leaf (CVal.str "auto")),
           ("include_metadata", CTree.leaf (CVal.bool true))])]),
   ("paths", CTree.node
      [("downloads", CTree.leaf (CVal.str "downloads")),
       ("fonts", CTree.leaf (CVal.str "fonts")),
       ("output", CTree.leaf (CVal.str "output"))]),
   ("batch", CTree.node
      [("continue_on_error", CTree.leaf (CVal.bool true))]),
   ("logging", CTree.node
      [("level", CTree.leaf (CVal.str "INFO")),
       ("save_logs", CTree.leaf (CVal.bool true)),
       ("log_file", CTree.leaf (CVal.str "kindle_processor.log"))])]

/-- load_config: with no override file (no path given, or the path absent)
the defaults are returned unchanged; otherwise the parsed override mapping
is merged into the defaults. -/
def loadConfig (overrideEntries : Option (List (String × CTree))) : List (String × CTree) :=
  match overrideEntries with
  | none => defaultConfigTree
  | some c => mergeDicts defaultConfigTree c

/-! ## Helper lemmas -/

/-- Stripping only removes characters. -/
theorem mem_stripChars {c : Char} {cs : List Char} (h : c ∈ stripChars cs) : c ∈ cs := by
  unfold stripChars at h
  rw [List.mem_reverse] at h
  have h1 := (List.dropWhile_sublist Char.isWhitespace).subset h
  rw [List.mem_reverse] at h1
  exact (List.dropWhile_sublist Char.isWhitespace).subset h1

/-- Lower-casing a digit character is the identity. -/
theorem toLower_of_isDigit (c : Char) (h : c.isDigit = true) : c.toLower = c := by
  simp [Char.isDigit] at h
  obtain ⟨h1, h2⟩ := h
  simp only [Char.toLower]
  rw [if_neg]
  push_neg
  intro hc
  exact absurd (le_trans hc h2) (by norm_num)

/-- An all-digit string never lower-cases to the word true or false. -/
theorem pyLower_digits_ne (s : String) (h : s.data.all Char.isDigit = true) :
    pyLower s ≠ "true" ∧ pyLower s ≠ "false" := by
  constructor <;> intro hEq
  · have hd : s.data.map Char.toLower = ['t', 'r', 'u', 'e'] := congrArg String.data hEq
    have hmem : 't' ∈ s.data.map Char.toLower := by rw [hd]; simp
    obtain ⟨c, hc, hct⟩ := List.mem_map.mp hmem
    have hcd : c.isDigit = true := List.all_eq_true.mp h c hc
    rw [toLower_of_isDigit c hcd] at hct
    subst hct
    simp at hcd
  · have hd : s.data.map Char.toLower = ['f', 'a', 'l', 's', 'e'] := congrArg String.data hEq
    have hmem : 'f' ∈ s.data.map Char.toLower := by rw [hd]; simp
    obtain ⟨c, hc, hct⟩ := List.mem_map.mp hmem
    have hcd : c.isDigit = true := List.all_eq_true.mp h c hc
    rw [toLower_of_isDigit c hcd] at hct
    subst hct
    simp at hcd

/-- A step that succeeds returns the unit value. -/
theorem runStep_ok_of_stepSucceeds {s : Step} {o : StepOutcome}
    (h : stepSucceeds s o = true) : runStep s o = Except.ok () := by
  unfold stepSucceeds at h
  cases hr : runStep s o with
  | ok u => cases u; rfl
  | error e => rw [hr] at h; simp at h

/-- The run_pipeline loop on a list whose steps before some failing step
all succeed: exactly the earlier steps and the failing one execute, cleanup
runs on the state the failing step left, and its error propagates. -/
theorem runSteps_fail (outcomes : Step → StepOutcome) (fs0 : FS)
    (pre : List Step) (s : Step) (post : List Step) (e : String)
    (hpre : ∀ t ∈ pre, stepSucceeds t (outcomes t) = true)
    (hfail : runStep s (outcomes s) = Except.error e) :
    runSteps outcomes fs0 (pre ++ s :: post) =
      ⟨pre ++ [s], true, Except.error e, cleanup_on_failure (outcomes s).fsAfter⟩ := by
  induction pre generalizing fs0 with
  | nil => simp [runSteps, hfail]
  | cons t ts ih =>
    have ht : runStep t (outcomes t) = Except.ok () :=
      runStep_ok_of_stepSucceeds (hpre t (by simp))
    have ihh := ih (outcomes t).fsAfter (fun x hx => hpre x (List.mem_cons_of_mem t hx))
    simp [runSteps, ht, ihh]

/-- Every step the run_pipeline loop starts is in its step list. -/
theorem runSteps_executed_mem (outcomes : Step → StepOutcome) (fs0 : FS)
    (l : List Step) : ∀ s ∈ (runSteps outcomes fs0 l).executed, s ∈ l := by
  induction l generalizing fs0 with
  | nil => simp [runSteps]
  | cons t ts ih =>
    intro s hs
    cases hr : runStep t (outcomes t) with
    | ok u =>
      cases u
      rw [runSteps, hr] at hs
      simp at hs
      rcases hs with hs | hs
      · simp [hs]
      · exact List.mem_cons_of_mem t (ih (outcomes t).fsAfter s hs)
    | error e =>
      rw [runSteps, hr] at hs
      simp at hs
      simp [hs]

/-- Whether a single-item pipeline run returned without raising. -/
def runOk : Except String Unit → Bool
  | Except.ok _ => true
  | Except.error _ => false

/-- With continue_on_error true the loop visits every identifier in
order. -/
theorem batchLoop_continue (run : String → Except String Unit) (asins : List String) :
    batchLoop true run asins = asins.map (recordOf run) := by
  induction asins with
  | nil => rfl
  | cons a rest ih => cases hr : run a <;> simp [batchLoop, recordOf, hr, ih]

/-- With continue_on_error false the loop stops right after the first
failure. -/
theorem batchLoop_halt (run : String → Except String Unit)
    (pre post : List String) (a e : String)
    (hpre : ∀ x ∈ pre, runOk (run x) = true) (hfail : run a = Except.error e) :
    batchLoop false run (pre ++ a :: post) =
      pre.map (recordOf run) ++ [⟨a, "failed", some e⟩] := by
  induction pre with
  | nil => simp [batchLoop, hfail]
  | cons x xs ih =>
    have hx : runOk (run x) = true := hpre x (by simp)
    have hok : ∃ u, run x = Except.ok u := by
      cases hr : run x with
      | ok u => exact ⟨u, rfl⟩
      | error e2 => rw [hr] at hx; simp [runOk] at hx
    obtain ⟨u, hu⟩ := hok
    cases u
    have ihh := ih (fun y hy => hpre y (List.mem_cons_of_mem x hy))
    simp [batchLoop, hu, recordOf, ihh]

/-- C7: the batch processor yields one identifier per non-blank,
non-comment line with whitespace trimmed; it fails with a file-not-found
condition when the list file is absent and with a no-identifiers condition
when the file is empty after filtering. -/
theorem c7_book_list (cfg : Config) (run : String → Except String Unit)
    (lines : List String) (hempty : parseBookList lines = []) :
    processBatch none cfg run = Except.error BatchError.fileNotFound ∧
    processBatch (some lines) cfg run = Except.error BatchError.noAsins ∧
    (∀ l2 : List String, parseBookList l2 = parseBookListSpec l2) ∧
    parseBookList ["ID1", "# comment", " ", "ID2"] = ["ID1", "ID2"] := by
  refine ⟨rfl, ?_, ?_, by decide⟩
  · simp [processBatch, hempty]
  · intro l2
    induction l2 with
    | nil => rfl
    | cons l rest ih =>
      by_cases hb : (pyStrip l).data.isEmpty = true
      · simp [parseBookList, parseBookListSpec, hb] at ih ⊢
        exact ih
      · by_cases hc : pyStartsWith l "#" = true
        · simp [parseBookList, parseBookListSpec, hb, hc] at ih ⊢
          exact ih
        · simp [parseBookList, parseBookListSpec, hb, hc] at ih ⊢
          exact ih

/-- Witness for C7 at concrete inputs. -/
theorem c7_book_list_witness :
    processBatch (some ["# only", "  "]) ⟨⟨⟨true, 5, false⟩, ⟨true, "progressive", true, true⟩,
        ⟨true, "auto", true⟩⟩, ⟨"downloads", "fonts", "output"⟩, ⟨true⟩,
        ⟨"INFO", true, "kindle_processor.log"⟩⟩ (fun _ => Except.ok ()) =
      Except.error BatchError.noAsins ∧
    parseBookList ["ID1", "# comment", " ", "ID2"] = ["ID1", "ID2"] := by
  have h := c7_book_list ⟨⟨⟨true, 5, false⟩, ⟨true, "progressive", true, true⟩,
      ⟨true, "auto", true⟩⟩, ⟨"downloads", "fonts", "output"⟩, ⟨true⟩,
      ⟨"INFO", true, "kindle_processor.log"⟩⟩ (fun _ => Except.ok ())
      ["# only", "  "] (by decide)
  exact ⟨h.2.1, h.2.2.2⟩

/-- C2: in batch mode identifiers are processed in file order; a failure is
recorded with the identifier, the failed status and the error message, a
success with the success status; with continue_on_error false processing
halts right after recording the first failure, so the report holds exactly
the attempted records; with continue_on_error true every identifier is
attempted and the report holds one record per identifier. -/
theorem c2_batch_order_and_halting (run : String → Except String Unit)
    (asins pre post lines : List String) (a e : String) (cfg : Config)
    (hpre : ∀ x ∈ pre, runOk (run x) = true) (hfail : run a = Except.error e)
    (hlines : parseBookList lines ≠ []) :
    batchLoop true run asins = asins.map (recordOf run) ∧
    (batchLoop true run asins).length = asins.length ∧
    (∀ x u, run x = Except.ok u → recordOf run x = ⟨x, "success", none⟩) ∧
    (∀ x e2, run x = Except.error e2 → recordOf run x = ⟨x, "failed", some e2⟩) ∧
    (∀ x ∈ pre, recordOf run x = ⟨x, "success", none⟩) ∧
    batchLoop false run (pre ++ a :: post) =
      pre.map (recordOf run) ++ [⟨a, "failed", some e⟩] ∧
    (batchLoop false run (pre ++ a :: post)).length = pre.length + 1 ∧
    processBatch (some lines) cfg run =
      Except.ok (batchLoop cfg.batch.continue_on_error run (parseBookList lines)) := by
  refine ⟨batchLoop_continue run asins, ?_, ?_, ?_, ?_, batchLoop_halt run pre post a e hpre hfail, ?_, ?_⟩
  · rw [batchLoop_continue]; simp
  · intro x u hx; cases u; rw [recordOf, hx]
  · intro x e2 hx; rw [recordOf, hx]
  · intro x hx
    have hr : runOk (run x) = true := hpre x hx
    cases hu : run x with
    | ok u => cases u; rw [recordOf, hu]
    | error e2 => rw [hu] at hr; simp [runOk] at hr
  · rw [batchLoop_halt run pre post a e hpre hfail]; simp
  · simp [processBatch, hlines]

/-- Example batch outcome: the second identifier fails. -/
def c2RunEx : String → Except String Unit :=
  fun a => if a = "B2" then Except.error "boom" else Except.ok ()

/-- Witness for C2: with five identifiers and the second failing,
continue_on_error false yields exactly two records while continue_on_error
true yields five. -/
theorem c2_batch_order_and_halting_witness :
    batchLoop false c2RunEx ["B1", "B2", "B3", "B4", "B5"] =
      [⟨"B1", "success", none⟩, ⟨"B2", "failed", some "boom"⟩] ∧
    (batchLoop true c2RunEx ["B1", "B2", "B3", "B4", "B5"]).length = 5 := by
  have h := c2_batch_order_and_halting c2RunEx ["B1", "B2", "B3", "B4", "B5"]
      ["B1"] ["B3", "B4", "B5"] ["B1"] "B2" "boom"
      ⟨⟨⟨true, 5, false⟩, ⟨true, "progressive", true, true⟩, ⟨true, "auto", true⟩⟩,
        ⟨"downloads", "fonts", "output"⟩, ⟨true⟩, ⟨"INFO", true, "kindle_processor.log"⟩⟩
      (by decide) (by rfl) (by decide)
  refine ⟨?_, ?_⟩
  · have h6 := h.2.2.2.2.2.1
    simp only [List.cons_append, List.nil_append] at h6
    rw [h6]
    decide
  · rw [h.2.1]
    rfl

/-- C10: a configured decode mode outside the recognized set invokes the
decode executable with only the book-directory argument and no mode flag,
not the progressive default. -/
theorem c10_decode_mode_flag (bookDir mode : String)
    (h1 : mode ≠ "fast") (h2 : mode ≠ "full") (h3 : mode ≠ "progressive") :
    decode_glyphs_cmd bookDir mode = ["python3", "decode_glyphs_complete.py", bookDir] := by
  simp [decode_glyphs_cmd, h1, h2, h3]

/-- Witness for C10 at a concrete unrecognized mode. -/
theorem c10_decode_mode_flag_witness :
    decode_glyphs_cmd "downloads/B0X" "turbo" =
      ["python3", "decode_glyphs_complete.py", "downloads/B0X"] := by
  exact c10_decode_mode_flag "downloads/B0X" "turbo" (by decide) (by decide) (by decide)

/-- C9 as stated is refuted: with a batch_0 metadata file lacking a
bookTitle entry, the title used for naming is the identifier passed through
filename sanitization, not the identifier itself. -/
theorem c9_batch0_title_counterexample :
    readTitle [⟨"batch_0", [], some none⟩] "A: B" = "A B" ∧
    ("A B" : String) ≠ "A: B" := by
  constructor
  · decide
  · decide

/-- C9 amended: the package step reads title metadata only from the
subdirectory literally named batch_0; when that subdirectory or its
metadata.json is absent the title falls back to the identifier unchanged;
when the metadata exists but lacks a bookTitle entry the fallback is the
identifier passed through the same sanitization; subdirectories other than
batch_0 are never consulted. -/
theorem c9_batch0_title_amended (ds ds2 : List BatchDir) (asin : String)
    (hnone : findDir ds2 "batch_0" = none) :
    (findDir ds "batch_0" = none → readTitle ds asin = asin) ∧
    (batch0Meta ds = none → readTitle ds asin = asin) ∧
    (batch0Meta ds = some none → readTitle ds asin = sanitizeTitle asin) ∧
    (∀ t, batch0Meta ds = some (some t) → readTitle ds asin = sanitizeTitle t) ∧
    (∀ dsOther, batch0Meta dsOther = batch0Meta ds →
      readTitle dsOther asin = readTitle ds asin) ∧
    readTitle ds2 asin = asin := by
  refine ⟨?_, ?_, ?_, ?_, ?_, ?_⟩
  · intro h; rw [readTitle, batch0Meta, h]
  · intro h; rw [readTitle, h]
  · intro h; rw [readTitle, h]; rfl
  · intro t h; rw [readTitle, h]; rfl
  · intro dsOther h; rw [readTitle, h, readTitle]
  · rw [readTitle, batch0Meta, hnone]

/-- Witness for C9 amended at concrete directory listings: a metadata file
in a differently named subdirectory is ignored. -/
theorem c9_batch0_title_amended_witness :
    readTitle [⟨"batch_1", [], some (some "Other Title")⟩] "B0X" = "B0X" := by
  exact (c9_batch0_title_amended [] [⟨"batch_1", [], some (some "Other Title")⟩]
    "B0X" (by decide)).2.2.2.2.2

/-- C3: cleanup on failure never deletes a batch subdirectory holding a
page-data file, always deletes each batch subdirectory lacking one, and
removes the two fixed-name artifacts from the current working directory
when present while touching no other file; missing files are no error (the
model is total). -/
theorem c3_cleanup_scope (fs : FS) (ds : List BatchDir) (b : BatchDir) (f : String)
    (hds : fs.bookDir = some ds) :
    (is_complete_batch b = true ↔ ∃ x ∈ b.files, matchesPageData x = true) ∧
    (cleanup_on_failure fs).bookDir =
      some (ds.filter (fun d => !pyStartsWith d.name "batch_" || is_complete_batch d)) ∧
    (b ∈ ds → pyStartsWith b.name "batch_" = true → is_complete_batch b = true →
      b ∈ ((cleanup_on_failure fs).bookDir.getD [])) ∧
    (pyStartsWith b.name "batch_" = true → is_complete_batch b = false →
      b ∉ ((cleanup_on_failure fs).bookDir.getD [])) ∧
    "ttf_character_mapping.json" ∉ (cleanup_on_failure fs).cwdFiles ∧
    "decoded_book.epub" ∉ (cleanup_on_failure fs).cwdFiles ∧
    (f ∈ fs.cwdFiles → f ≠ "ttf_character_mapping.json" → f ≠ "decoded_book.epub" →
      f ∈ (cleanup_on_failure fs).cwdFiles) := by
  refine ⟨?_, ?_, ?_, ?_, ?_, ?_, ?_⟩
  · simp [is_complete_batch, List.isEmpty_eq_false, List.filter_eq_nil_iff]
  · simp [cleanup_on_failure, hds]
  · intro hmem hname hcomp
    simp [cleanup_on_failure, hds, List.mem_filter, hname, hcomp, hmem]
  · intro hname hcomp
    simp [cleanup_on_failure, hds, List.mem_filter, hname, hcomp]
  · simp [cleanup_on_failure, List.mem_filter]
  · simp [cleanup_on_failure, List.mem_filter]
  · intro hmem hne1 hne2
    simp [cleanup_on_failure, List.mem_filter, hmem, hne1, hne2]

/-- Witness for C3 at a concrete filesystem state: the complete batch
directory survives, the incomplete one and the two artifacts are
removed. -/
theorem c3_cleanup_scope_witness :
    is_complete_batch ⟨"batch_0", ["page_data_0.json"], none⟩ = true ∧
    (cleanup_on_failure
        ⟨some [⟨"batch_0", ["page_data_0.json"], none⟩, ⟨"batch_1", ["other.txt"], none⟩],
          ["ttf_character_mapping.json", "decoded_book.epub", "keep.txt"]⟩).bookDir =
      some [⟨"batch_0", ["page_data_0.json"], none⟩] ∧
    "keep.txt" ∈ (cleanup_on_failure
        ⟨some [⟨"batch_0", ["page_data_0.json"], none⟩, ⟨"batch_1", ["other.txt"], none⟩],
          ["ttf_character_mapping.json", "decoded_book.epub", "keep.txt"]⟩).cwdFiles := by
  have h := c3_cleanup_scope
      ⟨some [⟨"batch_0", ["page_data_0.json"], none⟩, ⟨"batch_1", ["other.txt"], none⟩],
        ["ttf_character_mapping.json", "decoded_book.epub", "keep.txt"]⟩
      [⟨"batch_0", ["page_data_0.json"], none⟩, ⟨"batch_1", ["other.txt"], none⟩]
      ⟨"batch_0", ["page_data_0.json"], none⟩ "keep.txt" rfl
  refine ⟨?_, ?_, ?_⟩
  · exact h.1.mpr ⟨"page_data_0.json", by decide, by decide⟩
  · rw [h.2.1]
    decide
  · exact h.2.2.2.2.2.2 (by decide) (by decide) (by decide)

/-- C4: the package step computes the final EPUB filename from the
sanitized title (falling back to the identifier when the metadata file is
absent): the auto sentinel appends .epub to the title, any other configured
string is a template with the asin and title placeholders substituted and a
missing .epub suffix appended; sanitization removes exactly the illegal
filename characters and strips surrounding whitespace. -/
theorem c4_epub_naming (asin : String) (ds : List BatchDir) (outputName t : String) :
    (batch0Meta ds = none → createEpubName asin ds "auto" = asin ++ ".epub") ∧
    (batch0Meta ds = some (some t) →
      createEpubName asin ds "auto" = sanitizeTitle t ++ ".epub") ∧
    (outputName ≠ "auto" →
      createEpubName asin ds outputName =
        (if pyEndsWith (pyReplace (pyReplace outputName "{asin}" asin) "{title}"
              (readTitle ds asin)) ".epub" then
          pyReplace (pyReplace outputName "{asin}" asin) "{title}" (readTitle ds asin)
        else
          pyReplace (pyReplace outputName "{asin}" asin) "{title}" (readTitle ds asin) ++ ".epub")) ∧
    (∀ c ∈ (sanitizeTitle t).data, c ∉ illegalFilenameChars) ∧
    createEpubName "B0FLBTR2FS" [⟨"batch_0", [], some (some "My: Book")⟩]
        "{title} - {asin}.epub" = "My Book - B0FLBTR2FS.epub" ∧
    createEpubName asin [] "auto" = asin ++ ".epub" := by
  refine ⟨?_, ?_, ?_, ?_, by decide, ?_⟩
  · intro h
    simp [createEpubName, readTitle, h]
  · intro h
    simp [createEpubName, readTitle, h]
  · intro h
    simp [createEpubName, h]
  · intro c hc
    have hc2 : c ∈ stripChars (t.data.filter (fun x => !illegalFilenameChars.contains x)) := hc
    have hc3 := mem_stripChars hc2
    rw [List.mem_filter] at hc3
    intro hmem
    have := hc3.2
    simp at this
    exact this hmem
  · simp [createEpubName, readTitle, batch0Meta, findDir]

/-- Witness for C4 at concrete inputs: no metadata file gives the bare
identifier name, a metadata title is sanitized. -/
theorem c4_epub_naming_witness :
    createEpubName "B0FLBTR2FS" [] "auto" = "B0FLBTR2FS.epub" ∧
    createEpubName "B0X" [⟨"batch_0", [], some (some " My: Book ")⟩] "auto" = "My Book.epub" := by
  have h := c4_epub_naming "B0FLBTR2FS" [] "auto" "t"
  have h2 := c4_epub_naming "B0X" [⟨"batch_0", [], some (some " My: Book ")⟩] "auto" " My: Book "
  constructor
  · rw [h.1 rfl]
    decide
  · rw [h2.2.1 rfl]
    decide

/-- CLI mode overrides leave every enabled switch unchanged. -/
theorem enabledOf_applyModeOverride (cfg : Config) (a : Args) (s : Step) :
    enabledOf (applyModeOverride cfg a) s = enabledOf cfg s := by
  cases s <;> unfold applyModeOverride enabledOf <;> split_ifs <;> rfl

/-- The auto-confirm override leaves every enabled switch unchanged. -/
theorem enabledOf_applyYesOverride (cfg : Config) (a : Args) (s : Step) :
    enabledOf (applyYesOverride cfg a) s = enabledOf cfg s := by
  cases s <;> unfold applyYesOverride enabledOf <;> split_ifs <;> rfl

/-- The output-name override leaves every enabled switch unchanged. -/
theorem enabledOf_applyOutputNameOverride (cfg : Config) (a : Args) (s : Step) :
    enabledOf (applyOutputNameOverride cfg a) s = enabledOf cfg s := by
  cases s <;> unfold applyOutputNameOverride enabledOf <;>
    cases a.output_name <;> simp <;> split_ifs <;> rfl

/-- The skip flags conjoin each enabled switch with the negated flag. -/
theorem enabledOf_applySkipFlags (cfg : Config) (a : Args) (s : Step) :
    enabledOf (applySkipFlags cfg a) s = (enabledOf cfg s && !skipOf a s) := by
  cases s <;> simp only [applySkipFlags, enabledOf, skipOf] <;> split_ifs <;> simp_all

/-- The combined CLI overrides: a stage stays enabled iff its configured
switch is on and its skip flag is off. -/
theorem enabledOf_applyCliOverrides (cfg : Config) (a : Args) (s : Step) :
    enabledOf (applyCliOverrides cfg a) s = (enabledOf cfg s && !skipOf a s) := by
  unfold applyCliOverrides
  rw [enabledOf_applySkipFlags, enabledOf_applyOutputNameOverride,
    enabledOf_applyYesOverride, enabledOf_applyModeOverride]

/-- The step list is the fixed ordered list filtered by the enabled
switches. -/
theorem stepList_eq_filter (cfg : Config) :
    stepList cfg = [Step.download, Step.decode, Step.epub].filter (enabledOf cfg) := by
  cases hd : cfg.pipeline.download.enabled <;> cases hc : cfg.pipeline.decode.enabled <;>
    cases he : cfg.pipeline.epub.enabled <;>
      simp [stepList, List.filter_cons, enabledOf, hd, hc, he]

/-- C8: the pipeline step list holds the download, decode and package
steps exactly when each is enabled in the configuration and its skip flag
is absent, in the fixed source order; a stage outside the step list is
never started by the execution loop. -/
theorem c8_step_selection (cfg : Config) (a : Args) (outcomes : Step → StepOutcome) (fs0 : FS) :
    stepList (applyCliOverrides cfg a) =
      [Step.download, Step.decode, Step.epub].filter
        (fun s => enabledOf cfg s && !skipOf a s) ∧
    (∀ s, s ∈ stepList (applyCliOverrides cfg a) ↔
      (enabledOf cfg s = true ∧ skipOf a s = false)) ∧
    (∀ s ∈ (runSteps outcomes fs0 (stepList (applyCliOverrides cfg a))).executed,
      enabledOf cfg s = true ∧ skipOf a s = false) := by
  have hmain : stepList (applyCliOverrides cfg a) =
      [Step.download, Step.decode, Step.epub].filter
        (fun s => enabledOf cfg s && !skipOf a s) := by
    rw [stepList_eq_filter]
    apply List.filter_congr
    intro s _
    exact enabledOf_applyCliOverrides cfg a s
  have hmem : ∀ s, s ∈ stepList (applyCliOverrides cfg a) ↔
      (enabledOf cfg s = true ∧ skipOf a s = false) := by
    intro s
    rw [hmain, List.mem_filter]
    cases s <;> simp
  refine ⟨hmain, hmem, ?_⟩
  intro s hs
  exact (hmem s).mp (runSteps_executed_mem outcomes fs0 _ s hs)

/-- Witness for C8 at a concrete configuration: decode disabled in the
configuration and the package stage disabled by its skip flag leave only
the download step. -/
theorem c8_step_selection_witness :
    stepList (applyCliOverrides
      ⟨⟨⟨true, 5, false⟩, ⟨false, "progressive", true, true⟩, ⟨true, "auto", true⟩⟩,
        ⟨"downloads", "fonts", "output"⟩, ⟨true⟩, ⟨"INFO", true, "kindle_processor.log"⟩⟩
      ⟨false, false, false, false, none, false, false, true⟩) = [Step.download] := by
  have h := c8_step_selection
      ⟨⟨⟨true, 5, false⟩, ⟨false, "progressive", true, true⟩, ⟨true, "auto", true⟩⟩,
        ⟨"downloads", "fonts", "output"⟩, ⟨true⟩, ⟨"INFO", true, "kindle_processor.log"⟩⟩
      ⟨false, false, false, false, none, false, false, true⟩
      (fun _ => ⟨true, ⟨none, []⟩⟩) ⟨none, []⟩
  rw [h.1]
  decide

/-- C1: an enabled pipeline step succeeds only when the external process
exits zero and the expected artifact is present afterwards (download: the
working directory exists with at least one batch_* subdirectory; decode:
the character mapping file exists; package: the fixed-name EPUB exists);
a step failure runs cleanup and re-raises, so no later step of the
identifier runs and no success is reported. -/
theorem c1_step_failure_all_or_nothing (cfg : Config) (outcomes : Step → StepOutcome)
    (fs0 : FS) (pre post : List Step) (s : Step) (e : String)
    (hsteps : stepList cfg = pre ++ s :: post)
    (hpre : ∀ t ∈ pre, stepSucceeds t (outcomes t) = true)
    (hfail : runStep s (outcomes s) = Except.error e) :
    runSteps outcomes fs0 (stepList cfg) =
      ⟨pre ++ [s], true, Except.error e, cleanup_on_failure (outcomes s).fsAfter⟩ ∧
    (∀ o : StepOutcome, stepSucceeds Step.download o = true ↔
      (o.exitZero = true ∧ ∃ ds, o.fsAfter.bookDir = some ds ∧
        ∃ d ∈ ds, pyStartsWith d.name "batch_" = true)) ∧
    (∀ o : StepOutcome, stepSucceeds Step.decode o = true ↔
      (o.exitZero = true ∧ "ttf_character_mapping.json" ∈ o.fsAfter.cwdFiles)) ∧
    (∀ o : StepOutcome, stepSucceeds Step.epub o = true ↔
      (o.exitZero = true ∧ "decoded_book.epub" ∈ o.fsAfter.cwdFiles)) := by
  refine ⟨?_, ?_, ?_, ?_⟩
  · rw [hsteps]
    exact runSteps_fail outcomes fs0 pre s post e hpre hfail
  · intro o
    cases hz : o.exitZero
    · simp [stepSucceeds, runStep, hz]
    · cases hb : o.fsAfter.bookDir with
      | none => simp [stepSucceeds, runStep, hz, hb]
      | some ds =>
        cases hfe : (ds.filter (fun d => pyStartsWith d.name "batch_")).isEmpty
        · have hex : ∃ d ∈ ds, pyStartsWith d.name "batch_" = true := by
            rw [List.isEmpty_eq_false] at hfe
            obtain ⟨d, hd⟩ := List.exists_mem_of_ne_nil _ hfe
            rw [List.mem_filter] at hd
            exact ⟨d, hd.1, hd.2⟩
          simp [stepSucceeds, runStep, hz, hb, hfe, hex]
        · have hnex : ¬ ∃ d ∈ ds, pyStartsWith d.name "batch_" = true := by
            rw [List.isEmpty_eq_true, List.filter_eq_nil_iff] at hfe
            rintro ⟨d, hd, hdp⟩
            have hcontra := hfe d hd
            simp [hdp] at hcontra
          simp [stepSucceeds, runStep, hz, hb, hfe, hnex]
  · intro o
    cases hz : o.exitZero
    · simp [stepSucceeds, runStep, hz]
    · by_cases hm : "ttf_character_mapping.json" ∈ o.fsAfter.cwdFiles <;>
        simp [stepSucceeds, runStep, hz, hm]
  · intro o
    cases hz : o.exitZero
    · simp [stepSucceeds, runStep, hz]
    · by_cases hm : "decoded_book.epub" ∈ o.fsAfter.cwdFiles <;>
        simp [stepSucceeds, runStep, hz, hm]

/-- Example single-item run for the C1 witness: the download step succeeds
and the decode step exits zero without creating the mapping file. -/
def c1OutcomesEx : Step → StepOutcome
  | Step.download => ⟨true, ⟨some [⟨"batch_0", ["page_data_0.json"], none⟩], []⟩⟩
  | Step.decode => ⟨true, ⟨some [⟨"batch_0", ["page_data_0.json"], none⟩], []⟩⟩
  | Step.epub => ⟨true, ⟨some [⟨"batch_0", ["page_data_0.json"], none⟩], []⟩⟩

/-- Witness for C1: with every stage enabled, the decode step fails on the
missing artifact despite a zero exit status; the package step never runs,
cleanup runs, and the error propagates. -/
theorem c1_step_failure_all_or_nothing_witness :
    runSteps c1OutcomesEx ⟨none, []⟩ (stepList
        ⟨⟨⟨true, 5, false⟩, ⟨true, "progressive", true, true⟩, ⟨true, "auto", true⟩⟩,
          ⟨"downloads", "fonts", "output"⟩, ⟨true⟩, ⟨"INFO", true, "kindle_processor.log"⟩⟩) =
      ⟨[Step.download, Step.decode], true,
        Except.error "Decode failed - character mapping file not created",
        cleanup_on_failure (c1OutcomesEx Step.decode).fsAfter⟩ := by
  have h := c1_step_failure_all_or_nothing
      ⟨⟨⟨true, 5, false⟩, ⟨true, "progressive", true, true⟩, ⟨true, "auto", true⟩⟩,
        ⟨"downloads", "fonts", "output"⟩, ⟨true⟩, ⟨"INFO", true, "kindle_processor.log"⟩⟩
      c1OutcomesEx ⟨none, []⟩ [Step.download] [Step.epub] Step.decode
      "Decode failed - character mapping file not created"
      (by rfl) (by decide) (by rfl)
  have h1 := h.1
  simpa using h1

/-- C5: each well-formed override line dotted.key = value is parsed with
key and value trimmed, the value type-coerced (true and false become
booleans, all-digit strings become integers, anything else stays a string)
and the dotted key expanded into nested mappings; a line without an equals
sign is silently skipped. -/
theorem c5_override_parsing (cfg : List (String × CTree)) (line s u : String)
    (hnb : (pyStrip line).data.isEmpty = false)
    (hnc : pyStartsWith (pyStrip line) "#" = false)
    (hne : pySplitEqOnce (pyStrip line) = none)
    (hs1 : s.data ≠ []) (hs2 : s.data.all Char.isDigit = true)
    (hu1 : pyLower u ≠ "true") (hu2 : pyLower u ≠ "false")
    (hu3 : ¬ (u.data ≠ [] ∧ u.data.all Char.isDigit = true)) :
    processConfigLine cfg line = some cfg ∧
    coerceValue "true" = CVal.bool true ∧
    coerceValue "TRUE" = CVal.bool true ∧
    coerceValue "false" = CVal.bool false ∧
    coerceValue s = CVal.int (digitsToNat s.data) ∧
    coerceValue u = CVal.str u ∧
    parseSimpleConfig ["# comment", "", "a.b.c = 5"] =
      some [("a", CTree.node [("b", CTree.node [("c", CTree.leaf (CVal.int 5))])])] ∧
    parseSimpleConfig ["  a.b.c  =  5  "] =
      some [("a", CTree.node [("b", CTree.node [("c", CTree.leaf (CVal.int 5))])])] := by
  refine ⟨?_, by decide, by decide, by decide, ?_, ?_, by rfl, by rfl⟩
  · simp [processConfigLine, hnb, hnc, hne]
  · obtain ⟨hT, hF⟩ := pyLower_digits_ne s hs2
    rw [coerceValue, if_neg hT, if_neg hF, if_pos]
    simp [hs1, hs2]
  · rw [coerceValue, if_neg hu1, if_neg hu2, if_neg]
    simp only [Bool.and_eq_true, Bool.not_eq_true', List.isEmpty_eq_false]
    exact hu3

/-- Witness for C5 at concrete inputs. -/
theorem c5_override_parsing_witness :
    processConfigLine [] "no equals sign here" = some [] ∧
    coerceValue "5" = CVal.int (digitsToNat "5".data) ∧
    coerceValue "hello" = CVal.str "hello" ∧
    parseSimpleConfig ["a.b.c = 5"] =
      some [("a", CTree.node [("b", CTree.node [("c", CTree.leaf (CVal.int 5))])])] := by
  have h := c5_override_parsing [] "no equals sign here" "5" "hello"
      (by decide) (by decide) (by decide) (by decide) (by decide)
      (by decide) (by decide) (by decide)
  exact ⟨h.1, h.2.2.2.2.1, h.2.2.2.2.2.1, by rfl⟩

/-- Lookup after assignment at the same key. -/
theorem assocGet_assocSet_self (m : List (String × CTree)) (k : String) (v : CTree) :
    assocGet (assocSet m k v) k = some v := by
  induction m with
  | nil => simp [assocSet, assocGet]
  | cons p rest ih =>
    obtain ⟨k', v'⟩ := p
    by_cases h : k' = k
    · simp [assocSet, assocGet, h]
    · simp [assocSet, assocGet, h, ih]

/-- Lookup after assignment at another key. -/
theorem assocGet_assocSet_ne (m : List (String × CTree)) (k k2 : String) (v : CTree)
    (h : k ≠ k2) : assocGet (assocSet m k v) k2 = assocGet m k2 := by
  induction m with
  | nil => simp [assocSet, assocGet, h]
  | cons p rest ih =>
    obtain ⟨k', v'⟩ := p
    by_cases hk : k' = k
    · subst hk
      simp [assocSet, assocGet, h]
    · simp [assocSet, assocGet, hk, ih]

/-- Lookup of an absent key. -/
theorem assocGet_eq_none_of_not_mem (m : List (String × CTree)) (k : String)
    (h : k ∉ m.map Prod.fst) : assocGet m k = none := by
  induction m with
  | nil => rfl
  | cons p rest ih =>
    obtain ⟨k', v'⟩ := p
    rw [List.map_cons] at h
    simp only [List.mem_cons] at h
    push_neg at h
    rw [assocGet, if_neg (fun hh => h.1 hh.symm)]
    exact ih h.2

/-- One step of the merge: the head override entry is assigned its merged
value, then the tail is merged. -/
theorem mergeDicts_cons (d : List (String × CTree)) (k : String) (v : CTree)
    (rest : List (String × CTree)) :
    mergeDicts d ((k, v) :: rest) =
      mergeDicts (assocSet d k (mergedValue (assocGet d k) v)) rest := by
  cases v with
  | leaf x =>
    cases hd : assocGet d k with
    | none => simp [mergeDicts, mergedValue, hd]
    | some t => cases t <;> simp [mergeDicts, mergedValue, hd]
  | node cm =>
    cases hd : assocGet d k with
    | none => simp [mergeDicts, mergedValue, hd]
    | some t => cases t <;> simp [mergeDicts, mergedValue, hd]

/-- Lookup in a merged mapping, for override mappings with distinct keys
(Python dicts always have distinct keys). -/
theorem assocGet_mergeDicts (c : List (String × CTree)) (d : List (String × CTree))
    (k : String) (hnd : (c.map Prod.fst).Nodup) :
    assocGet (mergeDicts d c) k =
      match assocGet c k with
      | none => assocGet d k
      | some v => some (mergedValue (assocGet d k) v) := by
  induction c generalizing d with
  | nil => simp [mergeDicts, assocGet]
  | cons p rest ih =>
    obtain ⟨k1, v1⟩ := p
    rw [List.map_cons, List.nodup_cons] at hnd
    rw [mergeDicts_cons, ih _ hnd.2]
    by_cases hk : k1 = k
    · subst hk
      have hr : assocGet rest k1 = none :=
        assocGet_eq_none_of_not_mem rest k1 hnd.1
      rw [hr]
      simp [assocGet, assocGet_assocSet_self]
    · have hcons : assocGet ((k1, v1) :: rest) k = assocGet rest k := by
        simp [assocGet, hk]
    
      rw [hcons, assocGet_assocSet_ne d k1 k _ hk]

/-- C6: load_config merges the parsed override mapping into the defaults
recursively: at a key where both sides hold nested mappings they are merged
recursively, otherwise the override value replaces the default outright
(scalar over mapping or mapping over scalar included, with no type check);
keys unknown to the defaults are added; without an override file the
defaults are returned unchanged. -/
theorem c6_config_merge (d c : List (String × CTree)) (k : String) (v : CTree)
    (x : CVal) (dm cm : List (String × CTree))
    (hnd : (c.map Prod.fst).Nodup) :
    (assocGet c k = none → assocGet (mergeDicts d c) k = assocGet d k) ∧
    (assocGet c k = some (CTree.node cm) → assocGet d k = some (CTree.node dm) →
      assocGet (mergeDicts d c) k = some (CTree.node (mergeDicts dm cm))) ∧
    (assocGet c k = some (CTree.leaf x) →
      assocGet (mergeDicts d c) k = some (CTree.leaf x)) ∧
    (assocGet c k = some (CTree.node cm) →
      (∀ dm2, assocGet d k ≠ some (CTree.node dm2)) →
      assocGet (mergeDicts d c) k = some (CTree.node cm)) ∧
    (assocGet d k = none → assocGet c k = some v →
      assocGet (mergeDicts d c) k = some v) ∧
    loadConfig none = defaultConfigTree ∧
    loadConfig (some c) = mergeDicts defaultConfigTree c := by
  have hmain := assocGet_mergeDicts c d k hnd
  refine ⟨?_, ?_, ?_, ?_, ?_, rfl, rfl⟩
  · intro h
    rw [hmain, h]
  · intro hc hd
    rw [hmain, hc, hd]
    rfl
  · intro hc
    rw [hmain, hc]
    cases hd : assocGet d k with
    | none => rfl
    | some t => cases t <;> rfl
  · intro hc hd
    rw [hmain, hc]
    cases hdk : assocGet d k with
    | none => rfl
    | some t =>
      cases t with
      | leaf y => rfl
      | node dm2 => exact absurd hdk (hd dm2)
  · intro hd hc
    rw [hmain, hc, hd]
    cases v with
    | leaf y => rfl
    | node m2 => rfl

/-- Witness for C6 at a concrete default and override: a leaf override
replaces a leaf, a nested override merges into a nested default, an unknown
key is added. -/
theorem c6_config_merge_witness :
    assocGet (mergeDicts
        [("x", CTree.leaf (CVal.int 1)), ("b", CTree.node [("m", CTree.leaf (CVal.bool true))])]
        [("x", CTree.leaf (CVal.int 2)), ("y", CTree.leaf (CVal.str "new"))]) "x" =
      some (CTree.leaf (CVal.int 2)) ∧
    assocGet (mergeDicts
        [("x", CTree.leaf (CVal.int 1)), ("b", CTree.node [("m", CTree.leaf (CVal.bool true))])]
        [("x", CTree.leaf (CVal.int 2)), ("y", CTree.leaf (CVal.str "new"))]) "y" =
      some (CTree.leaf (CVal.str "new")) ∧
    assocGet (mergeDicts
        [("x", CTree.leaf (CVal.int 1)), ("b", CTree.node [("m", CTree.leaf (CVal.bool true))])]
        [("x", CTree.leaf (CVal.int 2)), ("y", CTree.leaf (CVal.str "new"))]) "b" =
      some (CTree.node [("m", CTree.leaf (CVal.bool true))]) := by
  have h1 := c6_config_merge
      [("x", CTree.leaf (CVal.int 1)), ("b", CTree.node [("m", CTree.leaf (CVal.bool true))])]
      [("x", CTree.leaf (CVal.int 2)), ("y", CTree.leaf (CVal.str "new"))]
      "x" (CTree.leaf (CVal.int 2)) (CVal.int 2) [] [] (by decide)
  have h2 := c6_config_merge
      [("x", CTree.leaf (CVal.int 1)), ("b", CTree.node [("m", CTree.leaf (CVal.bool true))])]
      [("x", CTree.leaf (CVal.int 2)), ("y", CTree.leaf (CVal.str "new"))]
      "y" (CTree.leaf (CVal.str "new")) (CVal.str "new") [] [] (by decide)
  have h3 := c6_config_merge
      [("x", CTree.leaf (CVal.int 1)), ("b", CTree.node [("m", CTree.leaf (CVal.bool true))])]
      [("x", CTree.leaf (CVal.int 2)), ("y", CTree.leaf (CVal.str "new"))]
      "b" (CTree.node [("m", CTree.leaf (CVal.bool true))]) (CVal.int 0) [] [] (by decide)
  refine ⟨?_, ?_, ?_⟩
  · exact h1.2.2.1 rfl
  · exact h2.2.2.2.2.1 rfl rfl
  · exact h3.1 rfl
